import Mathlib

/-!
Shallow embedding of the tushare client library (src/lib.rs, src/tushare.rs,
src/builder.rs): the client handle, the immutable query builder, the request
envelope construction, and the response validation / reshaping pipeline of
`QueryBuilder::query`.

JSON values (`serde_json::Value`) are modelled by the inductive `JVal`; JSON
numbers are modelled as integers (`Int`), which covers every response shape the
specification discusses (floating-point numbers play no role in any property
below).  The HTTP transport and the polars dataframe engine are external
collaborators: the transport is modelled by `HttpOutcome` (a transport-level
failure, or a delivered status code together with the parse result of the body
text), and materialization is modelled as handing the reshaped rows over (the
claims only concern whether materialization is reached, not polars internals).
-/

/-- JSON values, mirroring `serde_json::Value` (numbers restricted to
integers, objects as ordered association lists). -/
inductive JVal where
  | null : JVal
  | bool (b : Bool) : JVal
  | num (n : Int) : JVal
  | str (s : String) : JVal
  | arr (xs : List JVal) : JVal
  | obj (kvs : List (String × JVal)) : JVal

/-- `value[key]` of `serde_json`: on an object, look the key up (Null when
absent); on any non-object value the index operation yields Null. -/
def JVal.getKey : JVal → String → JVal
  | .obj kvs, k =>
    match kvs.lookup k with
    | some v => v
    | none => .null
  | _, _ => .null

/-- `Value::as_array`. -/
def JVal.asArr : JVal → Option (List JVal)
  | .arr xs => some xs
  | _ => none

/-- `Value::as_str`: `Some` exactly on JSON strings. -/
def JVal.asStr : JVal → Option String
  | .str s => some s
  | _ => none

/-- `Value::as_i64`: `Some` exactly on (integer) JSON numbers. -/
def JVal.asI64 : JVal → Option Int
  | .num n => some n
  | _ => none

/-- The error enum `TushareError` of src/builder.rs.  The payloads of
`NetworkError`, `JsonError` and `PolarsError` are opaque external error values
(`reqwest::Error`, `serde_json::Error`, `polars::error::PolarsError`) and are
modelled without data. -/
inductive TushareError where
  | EmptyError : TushareError
  | RequestError (code : String) (msg : String) : TushareError
  | DataError (path : String) : TushareError
  | NetworkError : TushareError
  | JsonError : TushareError
  | PolarsError : TushareError
deriving DecidableEq

/-- `pub type Dict = HashMap<String, String>`.  The hash map is modelled as an
association list with at most one entry per key; `dictInsert` below is
`HashMap::insert` (the value under an existing key is replaced), and
observations are made through `List.lookup`. -/
def Dict := List (String × String)

/-- `HashMap::insert`: the new pair replaces any previous entry for the key. -/
def dictInsert (d : Dict) (k v : String) : Dict :=
  (List.filter (fun p => p.1 ≠ k) d) ++ [(k, v)]

/-- `fn mergedict(map_pre: Dict, map_post: Dict) -> Dict`: iterate `map_pre`,
then `map_post`, collecting into a fresh map, so entries of `map_post` win on
key collision. -/
def mergedict (map_pre : Dict) (map_post : Dict) : Dict :=
  List.foldl (fun acc p => dictInsert acc p.1 p.2) map_pre map_post

/-- The client handle `Tushare` of src/tushare.rs. -/
structure Tushare where
  token : String
  api_endpoint : String

/-- `Tushare::new`. -/
def Tushare.new (token : String) : Tushare :=
  { token := token, api_endpoint := "http://api.tushare.pro" }

/-- The immutable `QueryBuilder` of src/builder.rs.  The Rust value borrows the
client handle; here the handle is embedded by value (it is never mutated). -/
structure QueryBuilder where
  tushare : Tushare
  api_name : String
  params : Option Dict
  fields : Option String

/-- `QueryBuilder::new`. -/
def QueryBuilder.new (tushare : Tushare) (api_name : String) : QueryBuilder :=
  { tushare := tushare, api_name := api_name, params := none, fields := none }

/-- `Tushare::querybuilder`. -/
def Tushare.querybuilder (t : Tushare) (api_name : String) : QueryBuilder :=
  QueryBuilder.new t api_name

/-- `QueryBuilder::params` (the spec's `set_params`; renamed because the
structure field is already called `params`): a new builder with `params`
replaced wholesale. -/
def QueryBuilder.setParams (b : QueryBuilder) (params : Dict) : QueryBuilder :=
  { tushare := b.tushare, api_name := b.api_name
    params := some params, fields := b.fields }

/-- `QueryBuilder::addparam`: merge the single pair into the prior params (the
new value wins), or start a single-entry map when no params existed. -/
def QueryBuilder.addparam (b : QueryBuilder) (k : String) (v : String) : QueryBuilder :=
  let new_paramdict : Dict := [(k, v)]
  let paramdict :=
    match b.params with
    | some dict => mergedict dict new_paramdict
    | none => new_paramdict
  { tushare := b.tushare, api_name := b.api_name
    params := some paramdict, fields := b.fields }

/-- `QueryBuilder::fields` (the spec's `set_fields`; renamed because the
structure field is already called `fields`): a new builder with `fields`
replaced. -/
def QueryBuilder.setFields (b : QueryBuilder) (fields : String) : QueryBuilder :=
  { tushare := b.tushare, api_name := b.api_name
    params := b.params, fields := some fields }

/-- A `Dict` serialized as a JSON object (how `serde_json::json!` embeds the
`HashMap` payload of `params`). -/
def dictToJson (d : Dict) : JVal :=
  .obj (d.map fun p => (p.1, .str p.2))

/-- `QueryBuilder::build`: the request envelope
`\x7bapi_name, token, params (or null), fields (or null)\x7d`. -/
def QueryBuilder.build (b : QueryBuilder) : JVal :=
  match b.params, b.fields with
  | some p, some f =>
    .obj [("api_name", .str b.api_name), ("token", .str b.tushare.token),
          ("params", dictToJson p), ("fields", .str f)]
  | some p, none =>
    .obj [("api_name", .str b.api_name), ("token", .str b.tushare.token),
          ("params", dictToJson p), ("fields", .null)]
  | none, some f =>
    .obj [("api_name", .str b.api_name), ("token", .str b.tushare.token),
          ("params", .null), ("fields", .str f)]
  | none, none =>
    .obj [("api_name", .str b.api_name), ("token", .str b.tushare.token),
          ("params", .null), ("fields", .null)]

/-- Lowercase hexadecimal digit, as used by `serde_json` control-character
escapes. -/
def hexDigit (n : Nat) : Char :=
  if n < 10 then Char.ofNat (48 + n) else Char.ofNat (87 + n)

/-- `serde_json` escaping of a single character inside a JSON string. -/
def escapeChar (c : Char) : String :=
  if c = '"' then "\\\""
  else if c = '\\' then "\\\\"
  else if c = '\n' then "\\n"
  else if c = '\r' then "\\r"
  else if c = '\t' then "\\t"
  else if c.toNat = 8 then "\\b"
  else if c.toNat = 12 then "\\f"
  else if c.toNat < 32 then
    "\\u00" ++ String.singleton (hexDigit (c.toNat / 16))
      ++ String.singleton (hexDigit (c.toNat % 16))
  else String.singleton c

/-- A JSON string literal with quotes, `serde_json` compact style. -/
def quoteStr (s : String) : String :=
  "\"" ++ String.join (s.toList.map escapeChar) ++ "\""

mutual
/-- Compact serialization of a JSON value (`serde_json::to_string`). -/
def serJson : JVal → String
  | .null => "null"
  | .bool true => "true"
  | .bool false => "false"
  | .num n => toString n
  | .str s => quoteStr s
  | .arr xs => "[" ++ serJsonComma xs ++ "]"
  | .obj kvs => "\x7b" ++ serObjComma kvs ++ "\x7d"

/-- Comma-separated serialization of array elements. -/
def serJsonComma : List JVal → String
  | [] => ""
  | [v] => serJson v
  | v :: w :: rest => serJson v ++ "," ++ serJsonComma (w :: rest)

/-- Comma-separated serialization of object members. -/
def serObjComma : List (String × JVal) → String
  | [] => ""
  | [kv] => quoteStr kv.1 ++ ":" ++ serJson kv.2
  | kv :: kw :: rest => quoteStr kv.1 ++ ":" ++ serJson kv.2 ++ "," ++ serObjComma (kw :: rest)
end

/-- `serde_json::Map::insert` (value replaced when the key exists, appended
otherwise), iterated over the zip of field names and row values — the body of
the per-item loop in `json_reformat`. -/
def mapInsert (m : List (String × JVal)) (k : String) (v : JVal) : List (String × JVal) :=
  if m.any (fun p => p.1 = k) then
    m.map (fun p => if p.1 = k then (k, v) else p)
  else m ++ [(k, v)]

/-- The row object built for one item: insert `(field, value)` for every pair
of the positional zip of the field names against the row values. -/
def rowObj (fields : List String) (item_data : List JVal) : List (String × JVal) :=
  List.foldl (fun m kv => mapInsert m kv.1 kv.2) [] (List.zip fields item_data)

/-- The fields loop of `json_reformat`: check every entry of `data.fields` is
a string, collecting the names; `i` is the running `enumerate` index used in
the error message. -/
def extractFields : List JVal → Nat → Except TushareError (List String)
  | [], _ => .ok []
  | f :: rest, i =>
    match f.asStr with
    | some s =>
      match extractFields rest (i + 1) with
      | .ok tail => .ok (s :: tail)
      | .error e => .error e
    | none => .error (.DataError ("data/fields at " ++ toString i))

/-- The items loop of `json_reformat`: check every item is an array and build
its row object; `i` is the running `enumerate` index used in the error
message. -/
def extractItems (fields : List String) : List JVal → Nat → Except TushareError (List JVal)
  | [], _ => .ok []
  | item :: rest, i =>
    match item.asArr with
    | some item_data =>
      match extractItems fields rest (i + 1) with
      | .ok tail => .ok (.obj (rowObj fields item_data) :: tail)
      | .error e => .error e
    | none =>
      .error (.DataError ("data/items/" ++ toString i ++ " is expected to be an array"))

/-- `QueryBuilder::json_reformat`: extract `data.fields` and `data.items`,
validate their shapes, and reshape the columnar data into row objects. -/
def json_reformat (resp_json : JVal) : Except TushareError (List JVal) :=
  match ((resp_json.getKey "data").getKey "fields").asArr with
  | none => .error (.DataError "data/fields")
  | some fields_json =>
    match extractFields fields_json 0 with
    | .error e => .error e
    | .ok fields =>
      match ((resp_json.getKey "data").getKey "items").asArr with
      | none => .error (.DataError "data/items")
      | some data => extractItems fields data 0

/-- The data-extraction tail of `QueryBuilder::query` (everything after the
response-code check): reshape, serialize back to text, fail with `EmptyError`
when the serialized rows are empty, otherwise hand the rows to the polars
reader (materialization is external; its input rows are the result). -/
def processData (resp_json : JVal) : Except TushareError (List JVal) :=
  match json_reformat resp_json with
  | .error e => .error e
  | .ok data_json =>
    if serJson (.arr data_json) = "" ∨ serJson (.arr data_json) = "[]" then
      .error .EmptyError
    else .ok data_json

/-- The body-level part of `QueryBuilder::query`, applied to the parsed
response JSON: when the `code` field parses as a non-zero i64, return
`RequestError` built from `as_str` of `code` and `msg` (each defaulting to
"unknown"); otherwise continue with data extraction. -/
def queryResponse (resp_json : JVal) : Except TushareError (List JVal) :=
  match (resp_json.getKey "code").asI64 with
  | some ret_code =>
    if ret_code ≠ 0 then
      let code := ((resp_json.getKey "code").asStr).getD "unknown"
      let msg := ((resp_json.getKey "msg").asStr).getD "unknown"
      .error (.RequestError code msg)
    else processData resp_json
  | none => processData resp_json

/-- Result of `serde_json::from_str` on the body text. -/
inductive BodyParse where
  | parseFailed : BodyParse
  | json (v : JVal) : BodyParse

/-- Outcome of the HTTP round trip, as seen by `query` after `send()`,
`error_for_status()`-relevant status inspection and `text()`:
either a transport-level `reqwest` failure (connection failure, timeout,
body-read failure), or a delivered response with its HTTP status code and the
result of parsing the body text as JSON (`parseFailed` when the body is not
valid JSON). -/
inductive HttpOutcome where
  | transportError : HttpOutcome
  | delivered (status : Nat) (body : BodyParse) : HttpOutcome

/-- `reqwest::Response::error_for_status` fails exactly on client-error
(400-499) and server-error (500-599) statuses. -/
def errorForStatusFails (status : Nat) : Bool :=
  (400 ≤ status && status ≤ 499) || (500 ≤ status && status ≤ 599)

/-- `QueryBuilder::query`, from the HTTP round trip on: transport failures and
`error_for_status` failures become `NetworkError`, an unparseable body becomes
`JsonError`, then the parsed JSON is processed by `queryResponse`. -/
def query (outcome : HttpOutcome) : Except TushareError (List JVal) :=
  match outcome with
  | .transportError => .error .NetworkError
  | .delivered status body =>
    if errorForStatusFails status then .error .NetworkError
    else
      match body with
      | .parseFailed => .error .JsonError
      | .json resp_json => queryResponse resp_json

lemma lookup_cons {β : Type} (k k0 : String) (v0 : β) (l : List (String × β)) :
    List.lookup k ((k0, v0) :: l) = if k = k0 then some v0 else List.lookup k l := by
  by_cases h : k = k0
  · subst h
    simp [List.lookup]
  · have hb : (k == k0) = false := beq_eq_false_iff_ne.mpr h
    simp [List.lookup, hb, h]

lemma lookup_filter_ne_append (d : Dict) (k : String) (l : List (String × String)) :
    List.lookup k (List.filter (fun p => p.1 ≠ k) d ++ l) = List.lookup k l := by
  induction d with
  | nil => rfl
  | cons a ds ih =>
    rcases a with ⟨k0, v0⟩
    by_cases h : k0 = k
    · simpa [List.filter, h] using ih
    · rw [show List.filter (fun p => p.1 ≠ k) ((k0, v0) :: ds)
            = (k0, v0) :: List.filter (fun p => p.1 ≠ k) ds by simp [List.filter, h]]
      rw [List.cons_append, lookup_cons]
      simpa [Ne.symm h] using ih

lemma lookup_dictInsert_self (d : Dict) (k v : String) :
    List.lookup k (dictInsert d k v) = some v := by
  unfold dictInsert
  rw [lookup_filter_ne_append, lookup_cons]
  simp

lemma lookup_dictInsert_ne (d : Dict) (k v k' : String) (h : k' ≠ k) :
    List.lookup k' (dictInsert d k v) = List.lookup k' d := by
  induction d with
  | nil =>
    rw [show dictInsert [] k v = [(k, v)] from rfl, lookup_cons]
    simp [h]
  | cons a ds ih =>
    rcases a with ⟨k0, v0⟩
    by_cases ha : k0 = k
    · rw [show dictInsert ((k0, v0) :: ds) k v = dictInsert ds k v by
        simp [dictInsert, List.filter, ha]]
      rw [ih, lookup_cons]
      simp [show k' ≠ k0 from fun hh => h (hh.trans ha)]
    · rw [show dictInsert ((k0, v0) :: ds) k v = (k0, v0) :: dictInsert ds k v by
        simp [dictInsert, List.filter, ha]]
      rw [lookup_cons, lookup_cons, ih]

lemma mergedict_single (d : Dict) (k v : String) :
    mergedict d [(k, v)] = dictInsert d k v := rfl

/-- The `params` component read through lookup (`HashMap::get`); `none` both
when no params were ever set and when the key is absent. -/
def paramLookup (p : Option Dict) (k : String) : Option String :=
  match p with
  | none => none
  | some d => List.lookup k d

/-- C6: `addparam` merges with last-write-wins semantics: after
`b.addparam k v1 |>.addparam k v2` the key `k` maps to `v2`, every other key
is bound exactly as in `b`, and `addparam` on a builder with no prior params
yields the single-entry mapping. -/
theorem addparam_last_write_wins (b : QueryBuilder) (k v1 v2 : String) :
    paramLookup ((b.addparam k v1).addparam k v2).params k = some v2
    ∧ (∀ k', k' ≠ k →
        paramLookup ((b.addparam k v1).addparam k v2).params k' = paramLookup b.params k')
    ∧ (b.params = none → (b.addparam k v1).params = some [(k, v1)]) := by
  refine ⟨?_, ?_, ?_⟩
  · cases hb : b.params with
    | none =>
      simp [QueryBuilder.addparam, hb, paramLookup, mergedict_single, lookup_dictInsert_self]
    | some d =>
      simp [QueryBuilder.addparam, hb, paramLookup, mergedict_single, lookup_dictInsert_self]
  · intro k' hk
    cases hb : b.params with
    | none =>
      simp only [QueryBuilder.addparam, hb, paramLookup, mergedict_single]
      rw [lookup_dictInsert_ne _ _ _ _ hk, lookup_cons]
      simp [hk]
    | some d =>
      simp only [QueryBuilder.addparam, hb, paramLookup, mergedict_single]
      rw [lookup_dictInsert_ne _ _ _ _ hk, lookup_dictInsert_ne _ _ _ _ hk]
  · intro hb
    simp [QueryBuilder.addparam, hb]

/-- Witness for C6 at a concrete builder and keys. -/
theorem addparam_last_write_wins_witness :
    paramLookup ((((Tushare.new "tok").querybuilder "daily").addparam "a" "1").addparam "a" "2").params "a"
      = some "2" :=
  (addparam_last_write_wins ((Tushare.new "tok").querybuilder "daily") "a" "1" "2").1

/-- C7: `params` (the spec's `set_params`) replaces the prior params
wholesale, whatever they were. -/
theorem setParams_replaces_wholesale (b : QueryBuilder) (P : Dict) :
    (b.setParams P).params = some P := rfl

/-- C8: each mutator only rebuilds its own component: `setParams`/`addparam`
preserve `api_name`, `fields` and the handle, `setFields` preserves
`api_name`, `params` and the handle.  (The receiver itself is untouched:
each call returns a fresh value, which the pure embedding makes immediate.) -/
theorem mutators_frame (b : QueryBuilder) (P : Dict) (k v f : String) :
    (b.setParams P).api_name = b.api_name ∧ (b.setParams P).fields = b.fields
    ∧ (b.setParams P).tushare = b.tushare
    ∧ (b.addparam k v).api_name = b.api_name ∧ (b.addparam k v).fields = b.fields
    ∧ (b.addparam k v).tushare = b.tushare
    ∧ (b.setFields f).api_name = b.api_name ∧ (b.setFields f).params = b.params
    ∧ (b.setFields f).tushare = b.tushare :=
  ⟨rfl, rfl, rfl, rfl, rfl, rfl, rfl, rfl, rfl⟩

/-- C9: the request envelope of a fresh builder (no params, no fields) is
exactly the object with the api name, the handle's token, and null params and
fields. -/
theorem build_fresh_envelope (t : Tushare) (api_name : String) :
    (t.querybuilder api_name).build
      = .obj [("api_name", .str api_name), ("token", .str t.token),
              ("params", .null), ("fields", .null)] := rfl

lemma extractFields_map_str (fields : List String) (i : Nat) :
    extractFields (fields.map .str) i = .ok fields := by
  induction fields generalizing i with
  | nil => rfl
  | cons f fs ih => simp [extractFields, JVal.asStr, ih (i + 1)]

lemma extractItems_map_arr (fields : List String) (rows : List (List JVal)) (i : Nat) :
    extractItems fields (rows.map .arr) i
      = .ok (rows.map fun row => .obj (rowObj fields row)) := by
  induction rows generalizing i with
  | nil => rfl
  | cons r rs ih => simp [extractItems, JVal.asArr, ih (i + 1)]

lemma mapInsert_of_not_mem (m : List (String × JVal)) (k : String) (v : JVal)
    (h : ∀ p ∈ m, p.1 ≠ k) : mapInsert m k v = m ++ [(k, v)] := by
  have hb : ¬ (m.any (fun p => p.1 = k) = true) := by
    simp only [List.any_eq_true, decide_eq_true_eq]
    exact fun ⟨p, hp, he⟩ => h p hp he
  unfold mapInsert
  rw [if_neg hb]

lemma rowObj_foldl_aux (fields : List String) :
    ∀ (row : List JVal) (m : List (String × JVal)), fields.Nodup →
      (∀ p ∈ m, p.1 ∉ fields) →
      List.foldl (fun m kv => mapInsert m kv.1 kv.2) m (List.zip fields row)
        = m ++ List.zip fields row := by
  induction fields with
  | nil => intro row m _ _; simp
  | cons f fs ih =>
    intro row m hnd hdisj
    cases row with
    | nil => simp
    | cons v vs =>
      rw [List.zip_cons_cons, List.foldl_cons]
      rw [mapInsert_of_not_mem m f v
        (fun p hp he => hdisj p hp (he ▸ List.mem_cons_self f fs))]
      rw [ih vs (m ++ [(f, v)]) (List.nodup_cons.mp hnd).2 ?_]
      · simp
      · intro p hp
        rcases List.mem_append.mp hp with hin | hin
        · exact fun hmem => hdisj p hin (List.mem_cons_of_mem f hmem)
        · have : p = (f, v) := List.mem_singleton.mp hin
          subst this
          exact (List.nodup_cons.mp hnd).1

lemma rowObj_eq_zip (fields : List String) (hnd : fields.Nodup) (row : List JVal) :
    rowObj fields row = List.zip fields row := by
  unfold rowObj
  simpa using rowObj_foldl_aux fields row [] hnd (by simp)

lemma lookup_zip_some (fields : List String) :
    ∀ (row : List JVal) (j : Nat) (hnd : fields.Nodup) (h1 : j < fields.length)
      (h2 : j < row.length),
      List.lookup (fields.get ⟨j, h1⟩) (List.zip fields row) = some (row.get ⟨j, h2⟩) := by
  induction fields with
  | nil => intro row j _ h1 _; exact absurd h1 (by simp)
  | cons f fs ih =>
    intro row j hnd h1 h2
    cases row with
    | nil => exact absurd h2 (by simp)
    | cons v vs =>
      cases j with
      | zero => simp [List.zip_cons_cons, lookup_cons]
      | succ j' =>
        have hj : j' < fs.length := by
          simp only [List.length_cons] at h1
          omega
        have hj2 : j' < vs.length := by
          simp only [List.length_cons] at h2
          omega
        have hne : fs.get ⟨j', hj⟩ ≠ f :=
          fun he => (List.nodup_cons.mp hnd).1 (he ▸ List.get_mem fs j' hj)
        rw [List.zip_cons_cons]
        rw [show (f :: fs).get ⟨j' + 1, h1⟩ = fs.get ⟨j', hj⟩ from rfl]
        rw [lookup_cons, if_neg hne]
        rw [show (v :: vs).get ⟨j' + 1, h2⟩ = vs.get ⟨j', hj2⟩ from rfl]
        exact ih vs j' (List.nodup_cons.mp hnd).2 hj hj2

lemma lookup_zip_none (fields : List String) :
    ∀ (row : List JVal) (j : Nat) (hnd : fields.Nodup) (h1 : j < fields.length),
      row.length ≤ j →
      List.lookup (fields.get ⟨j, h1⟩) (List.zip fields row) = none := by
  induction fields with
  | nil => intro row j _ h1 _; exact absurd h1 (by simp)
  | cons f fs ih =>
    intro row j hnd h1 h2
    cases row with
    | nil => simp
    | cons v vs =>
      cases j with
      | zero => exact absurd h2 (by simp)
      | succ j' =>
        have hj : j' < fs.length := by
          simp only [List.length_cons] at h1
          omega
        have hle : vs.length ≤ j' := by
          simp only [List.length_cons] at h2
          omega
        have hne : fs.get ⟨j', hj⟩ ≠ f :=
          fun he => (List.nodup_cons.mp hnd).1 (he ▸ List.get_mem fs j' hj)
        rw [List.zip_cons_cons]
        rw [show (f :: fs).get ⟨j' + 1, h1⟩ = fs.get ⟨j', hj⟩ from rfl]
        rw [lookup_cons, if_neg hne]
        exact ih vs j' (List.nodup_cons.mp hnd).2 hj hle

lemma json_reformat_ok (resp : JVal) (fields : List String) (rows : List (List JVal))
    (hf : ((resp.getKey "data").getKey "fields").asArr = some (fields.map .str))
    (hi : ((resp.getKey "data").getKey "items").asArr = some (rows.map .arr)) :
    json_reformat resp = .ok (rows.map fun row => .obj (rowObj fields row)) := by
  unfold json_reformat
  simp [hf, hi, extractFields_map_str, extractItems_map_arr]

/-- C2: for a response whose `data/fields` is a list of strings and
`data/items` a list of array rows, the reshape produces one object per row in
order, pairing the j-th field name with the row's j-th value by a
zip-shortest policy; with distinct field names, looking a field up in a row
object returns the positional value when the row is long enough and nothing
(the field is omitted) when the row is shorter, and values beyond the field
count are dropped by the zip. -/
theorem json_reformat_zip_shortest (code : JVal) (fields : List String)
    (rows : List (List JVal)) (hnd : fields.Nodup) :
    json_reformat (.obj [("code", code),
        ("data", .obj [("fields", .arr (fields.map .str)),
                       ("items", .arr (rows.map .arr))])])
      = .ok (rows.map fun row => .obj (List.zip fields row))
    ∧ (∀ (row : List JVal) (j : Nat) (h1 : j < fields.length) (h2 : j < row.length),
        List.lookup (fields.get ⟨j, h1⟩) (List.zip fields row) = some (row.get ⟨j, h2⟩))
    ∧ (∀ (row : List JVal) (j : Nat) (h1 : j < fields.length), row.length ≤ j →
        List.lookup (fields.get ⟨j, h1⟩) (List.zip fields row) = none) := by
  refine ⟨?_, ?_, ?_⟩
  · have h := json_reformat_ok
      (JVal.obj [("code", code),
        ("data", JVal.obj [("fields", JVal.arr (fields.map JVal.str)),
                           ("items", JVal.arr (rows.map JVal.arr))])])
      fields rows rfl rfl
    rw [h]
    simp [rowObj_eq_zip fields hnd]
  · intro row j h1 h2
    exact lookup_zip_some fields row j hnd h1 h2
  · intro row j h1 h2
    exact lookup_zip_none fields row j hnd h1 h2

/-- Witness for C2: the spec's example
`\x7bcode:0, data:\x7bfields:["a","b"], items:[[1,2],[3,4]]\x7d\x7d` reshapes to
`[\x7ba:1,b:2\x7d,\x7ba:3,b:4\x7d]`. -/
theorem json_reformat_zip_shortest_witness :
    json_reformat (.obj [("code", .num 0),
        ("data", .obj [("fields", .arr [.str "a", .str "b"]),
                       ("items", .arr [.arr [.num 1, .num 2], .arr [.num 3, .num 4]])])])
      = .ok [.obj [("a", .num 1), ("b", .num 2)], .obj [("a", .num 3), ("b", .num 4)]] :=
  (json_reformat_zip_shortest (.num 0) ["a", "b"]
    [[.num 1, .num 2], [.num 3, .num 4]] (by simp)).1

lemma extractFields_err (v : JVal) (rest : List JVal) (hv : v.asStr = none) :
    ∀ (pre : List String) (i : Nat),
      extractFields (pre.map .str ++ v :: rest) i
        = .error (.DataError ("data/fields at " ++ toString (i + pre.length))) := by
  intro pre
  induction pre with
  | nil => intro i; simp [extractFields, hv]
  | cons s ps ih =>
    intro i
    rw [List.map_cons, List.cons_append]
    rw [show extractFields (.str s :: (ps.map .str ++ v :: rest)) i
        = (match extractFields (ps.map .str ++ v :: rest) (i + 1) with
           | .ok tail => .ok (s :: tail)
           | .error e => .error e) from rfl]
    rw [ih (i + 1)]
    have harith : i + 1 + ps.length = i + (s :: ps).length := by
      simp only [List.length_cons]
      omega
    rw [harith]

lemma extractItems_err (fields : List String) (v : JVal) (rest : List JVal)
    (hv : v.asArr = none) :
    ∀ (pre : List (List JVal)) (i : Nat),
      extractItems fields (pre.map .arr ++ v :: rest) i
        = .error (.DataError
            ("data/items/" ++ toString (i + pre.length) ++ " is expected to be an array")) := by
  intro pre
  induction pre with
  | nil => intro i; simp [extractItems, hv]
  | cons r rs ih =>
    intro i
    rw [List.map_cons, List.cons_append]
    rw [show extractItems fields (.arr r :: (rs.map .arr ++ v :: rest)) i
        = (match extractItems fields (rs.map .arr ++ v :: rest) (i + 1) with
           | .ok tail => .ok (.obj (rowObj fields r) :: tail)
           | .error e => .error e) from rfl]
    rw [ih (i + 1)]
    have harith : i + 1 + rs.length = i + (r :: rs).length := by
      simp only [List.length_cons]
      omega
    rw [harith]

/-- C4: structural validation of the reshape.  If `data/fields` is absent or
not an array the reshape fails naming `data/fields`; with well-formed fields,
a missing or non-array `data/items` fails naming `data/items`; a non-string
entry of `data/fields` (all entries before it being strings) fails naming its
index; a non-array entry of `data/items` (all items before it being arrays)
fails naming its index. -/
theorem json_reformat_structural_errors (resp : JVal) :
    (((resp.getKey "data").getKey "fields").asArr = none →
        json_reformat resp = .error (.DataError "data/fields"))
    ∧ (∀ fields : List String,
        ((resp.getKey "data").getKey "fields").asArr = some (fields.map .str) →
        ((resp.getKey "data").getKey "items").asArr = none →
        json_reformat resp = .error (.DataError "data/items"))
    ∧ (∀ (pre : List String) (v : JVal) (rest : List JVal),
        ((resp.getKey "data").getKey "fields").asArr = some (pre.map .str ++ v :: rest) →
        v.asStr = none →
        json_reformat resp = .error (.DataError ("data/fields at " ++ toString pre.length)))
    ∧ (∀ (fields : List String) (pre : List (List JVal)) (v : JVal) (rest : List JVal),
        ((resp.getKey "data").getKey "fields").asArr = some (fields.map .str) →
        ((resp.getKey "data").getKey "items").asArr = some (pre.map .arr ++ v :: rest) →
        v.asArr = none →
        json_reformat resp = .error (.DataError
          ("data/items/" ++ toString pre.length ++ " is expected to be an array"))) := by
  refine ⟨?_, ?_, ?_, ?_⟩
  · intro h
    unfold json_reformat
    rw [h]
  · intro fields hf hi
    unfold json_reformat
    simp [hf, hi, extractFields_map_str]
  · intro pre v rest hf hv
    unfold json_reformat
    simp [hf, extractFields_err v rest hv pre 0]
  · intro fields pre v rest hf hi hv
    unfold json_reformat
    simp [hf, hi, extractFields_map_str, extractItems_err fields v rest hv pre 0]

/-- Witness for C4: the spec's example, a response missing `data.items`,
fails naming `data/items`. -/
theorem json_reformat_structural_errors_witness :
    json_reformat (.obj [("data", .obj [("fields", .arr [.str "a"])])])
      = .error (.DataError "data/items") :=
  (json_reformat_structural_errors _).2.1 ["a"] rfl rfl

lemma extractFields_error_shape :
    ∀ (l : List JVal) (i : Nat) (e : TushareError),
      extractFields l i = .error e → ∃ s, e = .DataError s := by
  intro l
  induction l with
  | nil => intro i e h; exact Except.noConfusion h
  | cons f rest ih =>
    intro i e h
    unfold extractFields at h
    cases hf : f.asStr with
    | none =>
      rw [hf] at h
      injection h with h
      exact ⟨_, h.symm⟩
    | some s =>
      rw [hf] at h
      cases he : extractFields rest (i + 1) with
      | ok tail => rw [he] at h; exact Except.noConfusion h
      | error e' =>
        rw [he] at h
        injection h with h
        exact h ▸ ih (i + 1) e' he

lemma extractItems_error_shape (fields : List String) :
    ∀ (l : List JVal) (i : Nat) (e : TushareError),
      extractItems fields l i = .error e → ∃ s, e = .DataError s := by
  intro l
  induction l with
  | nil => intro i e h; exact Except.noConfusion h
  | cons item rest ih =>
    intro i e h
    unfold extractItems at h
    cases hf : item.asArr with
    | none =>
      rw [hf] at h
      injection h with h
      exact ⟨_, h.symm⟩
    | some item_data =>
      rw [hf] at h
      cases he : extractItems fields rest (i + 1) with
      | ok tail => rw [he] at h; exact Except.noConfusion h
      | error e' =>
        rw [he] at h
        injection h with h
        exact h ▸ ih (i + 1) e' he

lemma json_reformat_error_shape (resp : JVal) (e : TushareError)
    (h : json_reformat resp = .error e) : ∃ s, e = .DataError s := by
  unfold json_reformat at h
  split at h
  · injection h with h
    exact ⟨_, h.symm⟩
  · rename_i fields_json hf
    split at h
    · rename_i e' hef
      injection h with h
      exact h ▸ extractFields_error_shape fields_json 0 e' hef
    · rename_i fields hef
      split at h
      · injection h with h
        exact ⟨_, h.symm⟩
      · rename_i data hi
        exact extractItems_error_shape fields data 0 e h

lemma processData_ne_requestError (resp : JVal) (c m : String) :
    processData resp ≠ .error (.RequestError c m) := by
  intro h
  unfold processData at h
  split at h
  · rename_i e hr
    injection h with h
    obtain ⟨s, hs⟩ := json_reformat_error_shape resp e hr
    subst hs
    exact TushareError.noConfusion h
  · split at h
    · injection h with h
      exact TushareError.noConfusion h
    · exact Except.noConfusion h

lemma processData_ne_ok_nil (resp : JVal) : processData resp ≠ .ok [] := by
  intro h
  unfold processData at h
  split at h
  · exact Except.noConfusion h
  · split at h
    · exact Except.noConfusion h
    · rename_i data_json hr hg
      injection h with h
      subst h
      exact hg (Or.inr rfl)

lemma queryResponse_code_none (resp : JVal)
    (h : (JVal.getKey resp "code").asI64 = none) :
    queryResponse resp = processData resp := by
  unfold queryResponse
  rw [h]

lemma queryResponse_code_zero (resp : JVal)
    (h : (JVal.getKey resp "code").asI64 = some 0) :
    queryResponse resp = processData resp := by
  unfold queryResponse
  rw [h]
  simp

/-- C1 (evaluation at the failing input): for the server body
`\x7bcode:18, msg:"invalid token"\x7d` the code guard fires, but `as_str` on the
numeric `code` value yields nothing, so the returned `RequestError` carries
the fallback code "unknown" instead of the server-supplied "18"; the string
`msg` is passed through. -/
theorem requestError_drops_numeric_code :
    queryResponse (.obj [("code", .num 18), ("msg", .str "invalid token")])
      = .error (.RequestError "unknown" "invalid token") := rfl

/-- C3: a response that passes the code check but reshapes to zero rows is
rejected as `EmptyError` before materialization; and in general, whenever the
pipeline returns rows for materialization, the reshaped row set is
non-empty. -/
theorem empty_rows_rejected (resp : JVal)
    (hcode : ∀ n : Int, (JVal.getKey resp "code").asI64 = some n → n = 0)
    (hempty : json_reformat resp = .ok []) :
    queryResponse resp = .error .EmptyError
    ∧ ∀ (r : JVal) (rows : List JVal), queryResponse r = .ok rows → rows ≠ [] := by
  have hpd : processData resp = .error .EmptyError := by
    unfold processData
    rw [hempty]
    rfl
  constructor
  · cases hc : (JVal.getKey resp "code").asI64 with
    | none => rw [queryResponse_code_none resp hc, hpd]
    | some n =>
      have hn : n = 0 := hcode n hc
      subst hn
      rw [queryResponse_code_zero resp hc, hpd]
  · intro r rows h hrows
    subst hrows
    unfold queryResponse at h
    split at h
    · split at h
      · exact Except.noConfusion h
      · exact processData_ne_ok_nil r h
    · exact processData_ne_ok_nil r h

/-- Witness for C3: the spec's example `\x7bcode:0, data:\x7bfields:["a"],
items:[]\x7d\x7d` fails with `EmptyError`. -/
theorem empty_rows_rejected_witness :
    queryResponse (.obj [("code", .num 0),
        ("data", .obj [("fields", .arr [.str "a"]), ("items", .arr [])])])
      = .error .EmptyError :=
  (empty_rows_rejected
    (JVal.obj [("code", JVal.num 0),
      ("data", JVal.obj [("fields", JVal.arr [JVal.str "a"]), ("items", JVal.arr [])])])
    (fun n h => by
      have h2 : (some (0 : Int)) = some n := h
      injection h2 with h3
      exact h3.symm)
    rfl).1

/-- C5: when the `code` field is absent (or not an integer JSON number, so
`as_i64` yields nothing), the pipeline does not reject the request: it
proceeds to data extraction exactly as on success, and no `RequestError` can
be produced. -/
theorem absent_code_treated_as_success (resp : JVal)
    (h : (JVal.getKey resp "code").asI64 = none) :
    queryResponse resp = processData resp
    ∧ ∀ c m, queryResponse resp ≠ .error (.RequestError c m) := by
  have h1 := queryResponse_code_none resp h
  exact ⟨h1, fun c m => h1 ▸ processData_ne_requestError resp c m⟩

/-- Witness for C5: a response whose `code` is the JSON string "18" (present
but not an integer number) is not rejected. -/
theorem absent_code_treated_as_success_witness :
    queryResponse (.obj [("code", .str "18"), ("msg", .str "invalid token")])
      = processData (.obj [("code", .str "18"), ("msg", .str "invalid token")])
    ∧ ∀ c m, queryResponse (.obj [("code", .str "18"), ("msg", .str "invalid token")])
        ≠ .error (.RequestError c m) :=
  absent_code_treated_as_success _ rfl

/-- C10 is false as stated: a delivered non-2xx status outside 400-599 (here
304 with a body that is not valid JSON, such as the empty body of a Not
Modified response) is not reported as `NetworkError`; `error_for_status` only
fails on 400-599, so the pipeline proceeds and fails at JSON decoding. -/
theorem non2xx_not_always_network :
    query (.delivered 304 .parseFailed) = .error .JsonError
    ∧ ¬ query (.delivered 304 .parseFailed) = .error .NetworkError
    ∧ ¬ (200 ≤ 304 ∧ 304 ≤ 299) := by
  refine ⟨rfl, fun h => ?_, by omega⟩
  have h2 : @Except.error TushareError (List JVal) .JsonError
      = @Except.error TushareError (List JVal) .NetworkError := h
  injection h2 with h3
  exact TushareError.noConfusion h3

/-- C10 amended: every transport-level failure of the round trip and every
HTTP status in 400-599 (the statuses `error_for_status` fails on) is returned
as `NetworkError`, in a single pass with no retry. -/
theorem network_failures_are_network_errors (status : Nat) (body : BodyParse)
    (h : errorForStatusFails status = true) :
    query .transportError = .error .NetworkError
    ∧ query (.delivered status body) = .error .NetworkError := by
  refine ⟨rfl, ?_⟩
  unfold query
  simp [h]

/-- Witness for the amended C10 at a transport failure and at status 500. -/
theorem network_failures_are_network_errors_witness :
    query .transportError = .error .NetworkError
    ∧ query (.delivered 500 .parseFailed) = .error .NetworkError :=
  network_failures_are_network_errors 500 .parseFailed (by decide)
